import Mathlib

/-!
# Verification of the attend-academy-timekeeper attendance core

Shallow embedding of the attendance check-in/check-out lifecycle from
`src/context/AttendanceContext.tsx` (Supabase variant) and the localStorage
variant (`unnamed/part_002`), the Reports page (`unnamed/part_000`, first
section) and the Dashboard duration display (`unnamed/part_000`, second
section).

Modelling conventions:
- JS `Date` timestamps are naturals: milliseconds since the epoch
  (`Date.getTime()`).  All records observed satisfy the invariant
  `check_out_time ≥ check_in_time` (spec §3), so natural subtraction
  agrees with JS number subtraction wherever a difference is taken.
- The asynchronous persistence collaborator (spec §6) is passed in as an
  explicit outcome argument (`Except String _`): `.ok` is a successful
  round trip, `.error` a thrown persistence error caught by the local
  `catch` block.
- Toast notifications are reified as a `Toast` value returned next to the
  new state, so "reports X" claims are statements about that value.
-/

namespace Attend

/-- The authenticated user (`src/context/AuthContext.tsx`, interface `User`). -/
structure User where
  id : String
  email : String
  name : String
deriving Repr, DecidableEq

/-- `AttendanceRecord` (`src/context/AttendanceContext.tsx` lines 7–13).
The localStorage variant (`unnamed/part_002` lines 5–11) has the same fields
under camelCase names (`userId`, `checkInTime`, `checkOutTime`). -/
structure AttendanceRecord where
  id : String
  user_id : String
  check_in_time : Nat
  check_out_time : Option Nat
  date : String
deriving Repr, DecidableEq

/-- The attendance tracker's component state: `todayRecord` and
`recentRecords` (`AttendanceContext.tsx` lines 33–34). -/
structure AttendanceState where
  todayRecord : Option AttendanceRecord
  recentRecords : List AttendanceRecord
deriving Repr, DecidableEq

/-- The state a fresh provider starts from, and the state the user-change
effect resets to (`AttendanceContext.tsx` lines 43–46). -/
def emptyAttendanceState : AttendanceState :=
  { todayRecord := none, recentRecords := [] }

/-- The user-visible notification emitted by an operation (the `toast` calls).
`silent` is the guard return without any toast. -/
inductive Toast where
  | silent
  | alreadyCheckedIn (t : Nat)
  | alreadyCheckedOut (t : Nat)
  | checkedInOk (t : Nat)
  | checkedOutOk (t : Nat)
  | checkInFailed
  | checkOutFailed
deriving Repr, DecidableEq

/-- `checkIn` (`AttendanceContext.tsx` lines 115–174).
`now` is the timestamp, `today` the `YYYY-MM-DD` key derived from it, and
`ins` the outcome of the `supabase.from('attendance').insert(...)` call:
on success the store assigns the fresh row id (spec §6,
`insert(record) -> record_with_id | error`). -/
def checkIn (user : Option User) (s : AttendanceState) (now : Nat)
    (today : String) (ins : Except String String) : AttendanceState × Toast :=
  match user with
  | none => (s, .silent)
  | some u =>
    match s.todayRecord with
    | some r => (s, .alreadyCheckedIn r.check_in_time)
    | none =>
      match ins with
      | .error _ => (s, .checkInFailed)
      | .ok rid =>
        let newRecord : AttendanceRecord :=
          { id := rid, user_id := u.id, check_in_time := now,
            check_out_time := none, date := today }
        ({ todayRecord := some newRecord,
           recentRecords := newRecord :: s.recentRecords },
         .checkedInOk now)

/-- `checkOut` (`AttendanceContext.tsx` lines 176–232).
`upd` is the outcome of the `supabase...update({check_out_time: now})` call;
per the spec §6 contract the store returns the record with the partial
fields applied, so the success branch rebuilds `todayRecord` from the old
record with `check_out_time := some now`. -/
def checkOut (user : Option User) (s : AttendanceState) (now : Nat)
    (upd : Except String Unit) : AttendanceState × Toast :=
  match user, s.todayRecord with
  | none, _ => (s, .silent)
  | some _, none => (s, .silent)
  | some _, some r =>
    match r.check_out_time with
    | some t => (s, .alreadyCheckedOut t)
    | none =>
      match upd with
      | .error _ => (s, .checkOutFailed)
      | .ok _ =>
        let updatedRecord : AttendanceRecord := { r with check_out_time := some now }
        ({ todayRecord := some updatedRecord,
           recentRecords := s.recentRecords.map fun rec =>
             if rec.id = updatedRecord.id then updatedRecord else rec },
         .checkedOutOk now)

/-- A sequence of `checkOut` invocations, each with its own timestamp and
persistence outcome, folded over the state. -/
def checkOutSeq (user : Option User) (s : AttendanceState)
    (calls : List (Nat × Except String Unit)) : AttendanceState :=
  calls.foldl (fun st c => (checkOut user st c.1 c.2).1) s

/-! ## The asynchronous split of `checkIn`

In the source, `checkIn` is an `async` function: between the
`if (todayRecord)` guard (line 124) and the state mutation
(lines 156–157) sits an `await supabase...insert` (lines 134–144).  On the
JS event loop another invocation can therefore run its guard while the
first insert is still in flight.  `checkInGuard` is everything before the
`await` (it reads state and decides whether to proceed to the insert);
`checkInCommit` is the continuation after a successful insert.  Neither
phase reads the `isLoading` flag — the source sets it (line 119) but never
consults it. -/

/-- The pre-`await` phase of `checkIn`: `true` iff the invocation proceeds
to the insert (`AttendanceContext.tsx` lines 115–131). -/
def checkInGuard (user : Option User) (s : AttendanceState) : Bool :=
  user.isSome && s.todayRecord.isNone

/-- The post-`await` phase of `checkIn` after a successful insert
(`AttendanceContext.tsx` lines 148–157), applied to whatever the component
state is at resumption time. -/
def checkInCommit (u : User) (s : AttendanceState) (now : Nat)
    (today rid : String) : AttendanceState :=
  let newRecord : AttendanceRecord :=
    { id := rid, user_id := u.id, check_in_time := now,
      check_out_time := none, date := today }
  { todayRecord := some newRecord,
    recentRecords := newRecord :: s.recentRecords }

/-! ## Date-range query (`fetchAttendanceByDateRange`) -/

/-- Modelled from the spec: the persistence collaborator's
`queryByUserAndDateRange(userId, from, to)` (spec §6); its implementation
(Supabase) is outside this repository.  The query built at
`AttendanceContext.tsx` lines 243–249 selects rows with
`.eq('user_id', uid)`, `.gte('date', fromDate)`, `.lte('date', toDate)` and
`.order('date', { ascending: false })`, so the model filters the table on
those three conditions and sorts by date descending. -/
def queryByUserAndDateRange (table : List AttendanceRecord)
    (uid fromDate toDate : String) : List AttendanceRecord :=
  (table.filter fun r =>
      r.user_id == uid && decide (fromDate ≤ r.date) && decide (r.date ≤ toDate)
    ).mergeSort fun a b => decide (b.date ≤ a.date)

/-- `fetchAttendanceByDateRange` (`AttendanceContext.tsx` lines 234–274).
`fromDate`/`toDate` are the `range.from`/`range.to` endpoints already
reduced to their `YYYY-MM-DD` keys; `net` is the transport outcome of the
query (`.error` is a thrown persistence error, caught and turned into a
toast and an empty result, lines 263–270). -/
def fetchAttendanceByDateRange (user : Option User)
    (table : List AttendanceRecord) (fromDate toDate : Option String)
    (net : Except String Unit) : List AttendanceRecord :=
  match user, fromDate, toDate with
  | none, _, _ => []
  | some _, none, _ => []
  | some _, _, none => []
  | some u, some f, some t =>
    match net with
    | .error _ => []
    | .ok _ => queryByUserAndDateRange table u.id f t

/-! ## Loading and the user-change effect -/

/-- `loadAttendanceRecords` of the localStorage variant (`unnamed/part_002`
lines 39–64).  `stored` is the combined outcome of
`localStorage.getItem` and `JSON.parse`: `none` when no payload is stored,
`some (.error e)` when the payload is malformed (the `catch` block logs and
returns), `some (.ok parsed)` the parsed record list.  The second component
of the result records whether `console.error` ran. -/
def loadAttendanceRecords (user : Option User) (s : AttendanceState)
    (stored : Option (Except String (List AttendanceRecord)))
    (today : String) : AttendanceState × Bool :=
  match user with
  | none => (s, false)
  | some _ =>
    match stored with
    | none => (s, false)
    | some (.error _) => (s, true)
    | some (.ok parsed) =>
      ({ todayRecord := parsed.find? fun r => r.date == today,
         recentRecords :=
           parsed.mergeSort fun a b => decide (b.check_in_time ≤ a.check_in_time) },
       false)

/-- The `useEffect` on `[user]` (`AttendanceContext.tsx` lines 40–47,
identical in `unnamed/part_002` lines 30–37): when the identity is present
it loads, when absent it resets both pieces of state to empty. -/
def attendanceUserEffect (user : Option User) (s : AttendanceState)
    (stored : Option (Except String (List AttendanceRecord)))
    (today : String) : AttendanceState × Bool :=
  match user with
  | some _ => loadAttendanceRecords user s stored today
  | none => ({ todayRecord := none, recentRecords := [] }, false)

/-- The `AuthProvider` mount effect (`src/context/AuthContext.tsx`
lines 92–103): restore the stored user, and on a parse failure log, drop
the corrupt payload from storage and leave the user absent.  Result:
(resulting user, payload removed from storage, error logged). -/
def authLoadStoredUser (stored : Option (Except String User)) :
    Option User × Bool × Bool :=
  match stored with
  | none => (none, false, false)
  | some (.ok u) => (some u, false, false)
  | some (.error _) => (none, true, true)

/-! ## Duration computation -/

/-- `calculateDuration` (`unnamed/part_000` lines 247–255, Dashboard):
`Math.floor` over millisecond differences.  All observed records satisfy
`checkOut ≥ checkIn` (spec §3 invariant), so natural subtraction agrees
with the JS number arithmetic. -/
def calculateDuration (checkInT : Nat) (checkOutT : Option Nat) : String :=
  match checkOutT with
  | none => "In progress"
  | some co =>
    let diff := co - checkInT
    let hours := diff / (1000 * 60 * 60)
    let minutes := diff % (1000 * 60 * 60) / (1000 * 60)
    toString hours ++ "h " ++ toString minutes ++ "m"

/-- The duration string computed inside `generateReport` (`unnamed/part_000`
lines 49–56, Reports): `differenceInHours` truncates the hour difference,
`differenceInMinutes ... % 60` truncates the minute difference and keeps the
remainder mod 60. -/
def reportDuration (checkInT : Nat) (checkOutT : Option Nat) : String :=
  match checkOutT with
  | none => "In progress"
  | some co =>
    let hours := (co - checkInT) / (1000 * 60 * 60)
    let minutes := (co - checkInT) / (1000 * 60) % 60
    toString hours ++ "h " ++ toString minutes ++ "m"

/-! ## Reports page (`unnamed/part_000`, first section) -/

/-- `AttendanceReport` (`unnamed/part_000` lines 14–20). -/
structure AttendanceReport where
  id : String
  date : String
  checkInTime : String
  checkOutTime : Option String
  duration : String
deriving Repr, DecidableEq

/-- `generateReport` (`unnamed/part_000` lines 44–68), minus the fetch it
delegates to `fetchAttendanceByDateRange`.  The external `date-fns`
`format` calls are passed in as functions: `fmtTime` renders a timestamp
with pattern `HH:mm:ss`, `fmtDate` re-renders the date key with pattern
`yyyy-MM-dd`. -/
def generateReport (fmtTime : Nat → String) (fmtDate : String → String)
    (records : List AttendanceRecord) : List AttendanceReport :=
  records.map fun record =>
    { id := record.id,
      date := fmtDate record.date,
      checkInTime := fmtTime record.check_in_time,
      checkOutTime := record.check_out_time.map fmtTime,
      duration := reportDuration record.check_in_time record.check_out_time }

/-- JS `a || b` on an optional string: `null` and the empty string are
falsy and yield the fallback. -/
def jsOrElse (s : Option String) (d : String) : String :=
  match s with
  | none => d
  | some v => if v = "" then d else v

/-- One CSV data row (`unnamed/part_000` line 78). -/
def csvRow (r : AttendanceReport) : String :=
  r.date ++ "," ++ r.checkInTime ++ "," ++
    jsOrElse r.checkOutTime "Not checked out" ++ "," ++ r.duration

/-- The CSV header (`unnamed/part_000` line 74), trailing newline included. -/
def csvHeader : String := "Date,Check In Time,Check Out Time,Duration\n"

/-- `downloadCSV` (`unnamed/part_000` lines 70–93): `none` when the report
is empty (the early return produces no file), otherwise the downloaded
file as (filename, contents).  `today` is `format(new Date(), 'yyyy-MM-dd')`. -/
def downloadCSV (reportData : List AttendanceReport) (today : String) :
    Option (String × String) :=
  if reportData.isEmpty then none
  else
    some ("attendance_report_" ++ today ++ ".csv",
      csvHeader ++ String.intercalate "\n" (reportData.map csvRow))

/-- `record.duration.split('h')[0]` (`unnamed/part_000` line 99): the text
before the first `'h'`. -/
def splitAtH (s : String) : String :=
  ⟨s.data.takeWhile fun c => c ≠ 'h'⟩

/-- JS `parseInt` restricted to what reaches it here: parse the leading
run of decimal digits; `none` models `NaN` (no leading digit). -/
def parseDigitsAux : List Char → Nat → Nat
  | [], acc => acc
  | c :: cs, acc =>
    if c.isDigit then parseDigitsAux cs (acc * 10 + (c.toNat - 48)) else acc

/-- JS `parseInt` on a string: `NaN` (`none`) unless a leading digit
exists, else the value of the leading digit run. -/
def jsParseInt (s : String) : Option Nat :=
  match s.data with
  | [] => none
  | c :: _ => if c.isDigit then some (parseDigitsAux s.data 0) else none

/-- `totalDays` (`unnamed/part_000` line 96). -/
def totalDays (reportData : List AttendanceReport) : Nat :=
  reportData.length

/-- The reducer passed to `reduce` in `totalHours` (`unnamed/part_000`
lines 97–103): skip rows still in progress, add
`parseInt(duration.split('h')[0])` for the rest.  `none` models the `NaN`
that would propagate if `parseInt` failed. -/
def totalHoursStep (total : Option Nat) (record : AttendanceReport) : Option Nat :=
  if record.duration ≠ "In progress" then
    match total, jsParseInt (splitAtH record.duration) with
    | some t, some h => some (t + h)
    | _, _ => none
  else total

/-- `totalHours` (`unnamed/part_000` lines 97–103). -/
def totalHours (reportData : List AttendanceReport) : Option Nat :=
  reportData.foldl totalHoursStep (some 0)

/-- Fuel-driven `⌊log₂ n⌋` (0 for `n ≤ 1`), structurally recursive so that
the kernel can evaluate it (core's `Nat.log2` is well-founded recursive). -/
def natLog2Fuel : Nat → Nat → Nat
  | 0, _ => 0
  | fuel + 1, n => if n ≥ 2 then natLog2Fuel fuel (n / 2) + 1 else 0

/-- `⌊log₂ n⌋` for `n ≥ 1` (`n` itself is always enough fuel). -/
def natLog2 (n : Nat) : Nat := natLog2Fuel n n

/-- `⌊log₂ (h / d)⌋` for `h, d ≥ 1`, in integer arithmetic: from the bit
lengths of `h` and `d` the result is `e0` or `e0 - 1`, and one integer
comparison (`h / d < 2 ^ e0`, cleared of the division) decides which. -/
def floorLog2Frac (h d : Nat) : ℤ :=
  let e0 : ℤ := (natLog2 h : ℤ) - (natLog2 d : ℤ)
  if 0 ≤ e0 then
    if h < d * 2 ^ e0.toNat then e0 - 1 else e0
  else
    if h * 2 ^ (-e0).toNat < d then e0 - 1 else e0

/-- The binary64 significand and exponent of the IEEE double nearest to
`h / d` (`h, d ≥ 1`): the result `(m, e)` satisfies
`double(h / d) = m * 2 ^ (e - 52)` with `2 ^ 52 ≤ m ≤ 2 ^ 53`.  The
significand is `h / d` scaled into `[2^52, 2^53)` and rounded to nearest,
ties to even (the IEEE 754 default), entirely in natural arithmetic:
`num / den` rounds to `q`, `q + 1`, or on the half-way tie `2 * r = den`
to whichever is even.  Normal range is assumed (no overflow or
subnormals — the quotients reaching this model are ordinary hour counts). -/
def jsDivSig (h d : Nat) : Nat × ℤ :=
  let e := floorLog2Frac h d
  let s := 52 - e
  let num := if 0 ≤ s then h * 2 ^ s.toNat else h
  let den := if 0 ≤ s then d else d * 2 ^ (-s).toNat
  let q := num / den
  let r := num % den
  let m := if 2 * r < den then q
           else if den < 2 * r then q + 1
           else if q % 2 = 0 then q else q + 1
  (m, e)

/-- The exact value of the IEEE binary64 quotient `h / d` as a rational:
the JS value of the division at `unnamed/part_000` line 104.
`totalHours` and `totalDays` are integers below `2 ^ 53`, hence exact
doubles, so the division is the only rounding step; `0 / d` is exactly
`0`, and `d = 0` (`NaN`) is unreachable behind the `totalDays > 0` guard. -/
def jsDivDouble (h d : Nat) : ℚ :=
  if h = 0 ∨ d = 0 then 0
  else
    let p := jsDivSig h d
    let s : ℤ := 52 - p.2
    if 0 ≤ s then (p.1 : ℚ) / ((2 ^ s.toNat : ℕ) : ℚ)
    else (p.1 : ℚ) * ((2 ^ (-s).toNat : ℕ) : ℚ)

/-- ECMA-262 `Number.prototype.toFixed(1)` applied to the exact value of a
non-negative double `x`: the integer `n` with `n / 10` closest to `x`,
the larger `n` on a tie — i.e. `n = ⌊10 x + 1/2⌋` — rendered here as the
value `n / 10`. -/
def jsToFixed1 (q : ℚ) : ℚ := ((⌊q * 10 + 1 / 2⌋ : ℤ) : ℚ) / 10

/-- `averageHoursPerDay` (`unnamed/part_000` line 104):
`totalDays > 0 ? (totalHours / totalDays).toFixed(1) : 0`.  The division
is performed in binary64 (`jsDivDouble`) and `toFixed(1)` then rounds the
double's exact value to tenths.  A `NaN` total never arises on generated
reports; it is mapped to `0` here. -/
def averageHoursPerDay (reportData : List AttendanceReport) : ℚ :=
  if 0 < totalDays reportData then
    jsToFixed1 (jsDivDouble ((totalHours reportData).getD 0) (totalDays reportData))
  else 0

/-- The whole-hour component of one record's duration as the summary sums
it: zero for a record still in progress. -/
def wholeHours (r : AttendanceRecord) : Nat :=
  match r.check_out_time with
  | none => 0
  | some co => (co - r.check_in_time) / (1000 * 60 * 60)

/-- The value of a digit string read most-significant-first, on top of an
accumulator — exactly what `parseDigitsAux` computes on all-digit input. -/
def digitsVal (l : List Char) (acc : Nat) : Nat :=
  l.foldl (fun a c => a * 10 + (c.toNat - 48)) acc

/-- A concrete user for closed instances of the theorems below. -/
def demoUser : User :=
  { id := "u1", email := "demo@example.com", name := "demo" }

/-- A concrete open (not yet checked out) record owned by `demoUser`. -/
def demoRecord : AttendanceRecord :=
  { id := "r1", user_id := "u1", check_in_time := 1000,
    check_out_time := none, date := "2024-01-01" }

/-- The state reached by two overlapping `checkIn` invocations when both
run their guard phase against the initial state before either insert
resolves: guard A, guard B, commit A, commit B — a schedule the JS event
loop permits because the guard and the commit are separated by an
`await` and neither consults the busy flag. -/
def racedState : AttendanceState :=
  checkInCommit demoUser
    (checkInCommit demoUser emptyAttendanceState 1000 "2024-01-01" "rowA")
    2000 "2024-01-01" "rowB"

/-- A concrete report row with an absent checkout. -/
def demoReport : AttendanceReport :=
  { id := "r1", date := "2024-01-01", checkInTime := "09:00:00",
    checkOutTime := none, duration := "In progress" }

/-- A 20-row report totalling exactly 3 whole hours: one completed 3-hour
record and 19 records still in progress, so the summary computes
`(3 / 20).toFixed(1)`. -/
def tieReport : List AttendanceReport :=
  { id := "d0", date := "2024-01-01", checkInTime := "08:00:00",
    checkOutTime := some "11:00:00", duration := "3h 0m" } ::
  List.replicate 19
    { id := "p", date := "2024-01-01", checkInTime := "08:00:00",
      checkOutTime := none, duration := "In progress" }

/-! ## General lemmas

The decimal round trip: the summary at `unnamed/part_000` lines 97–103
parses back the hour component that `generateReport` rendered with a
template literal, so we need that `parseInt` applied to the decimal
rendering of `n` recovers `n`.  Proved against core's `Nat.toDigits`. -/

theorem digitsVal_append (l1 l2 : List Char) (acc : Nat) :
    digitsVal (l1 ++ l2) acc = digitsVal l2 (digitsVal l1 acc) := by
  simp [digitsVal, List.foldl_append]

theorem digitChar_isDigit {k : Nat} (h : k < 10) :
    (Nat.digitChar k).isDigit = true := by
  interval_cases k <;> decide

theorem digitChar_val {k : Nat} (h : k < 10) :
    (Nat.digitChar k).toNat - 48 = k := by
  interval_cases k <;> decide

theorem toDigitsCore_spec (n : Nat) : ∀ fuel ds, n < fuel →
    ∃ pre, Nat.toDigitsCore 10 fuel n ds = pre ++ ds ∧ pre ≠ [] ∧
      (∀ c ∈ pre, c.isDigit = true) ∧
      ∀ acc, digitsVal pre acc = acc * 10 ^ pre.length + n := by
  induction n using Nat.strong_induction_on with
  | _ n ih =>
    intro fuel ds hfuel
    match fuel with
    | 0 => omega
    | f + 1 =>
      by_cases h0 : n / 10 = 0
      · refine ⟨[Nat.digitChar (n % 10)], ?_, by simp, ?_, ?_⟩
        · simp [Nat.toDigitsCore, h0]
        · intro c hc
          rw [List.mem_singleton] at hc
          subst hc
          exact digitChar_isDigit (Nat.mod_lt _ (by omega))
        · intro acc
          have hv : (Nat.digitChar (n % 10)).toNat - 48 = n % 10 :=
            digitChar_val (by omega)
          simp only [digitsVal, List.foldl_cons, List.foldl_nil, hv,
            List.length_singleton, pow_one]
          omega
      · have hlt : n / 10 < n := Nat.div_lt_self (by omega) (by omega)
        have hf : n / 10 < f := by omega
        obtain ⟨pre, heq, hne, hdig, hval⟩ :=
          ih (n / 10) hlt f (Nat.digitChar (n % 10) :: ds) hf
        refine ⟨pre ++ [Nat.digitChar (n % 10)], ?_, by simp, ?_, ?_⟩
        · have hstep : Nat.toDigitsCore 10 (f + 1) n ds =
              Nat.toDigitsCore 10 f (n / 10) (Nat.digitChar (n % 10) :: ds) := by
            simp [Nat.toDigitsCore, h0]
          rw [hstep, heq]
          simp
        · intro c hc
          rcases List.mem_append.mp hc with h | h
          · exact hdig c h
          · rw [List.mem_singleton] at h
            subst h
            exact digitChar_isDigit (Nat.mod_lt _ (by omega))
        · intro acc
          rw [digitsVal_append, hval]
          have hd : (Nat.digitChar (n % 10)).toNat - 48 = n % 10 :=
            digitChar_val (Nat.mod_lt _ (by omega))
          simp only [digitsVal, List.foldl_cons, List.foldl_nil, hd,
            List.length_append, List.length_singleton]
          rw [pow_succ]
          have hmod : n / 10 * 10 + n % 10 = n := by omega
          rw [Nat.add_mul, Nat.add_assoc, hmod, Nat.mul_assoc]

theorem toDigits_spec (n : Nat) :
    Nat.toDigits 10 n ≠ [] ∧ (∀ c ∈ Nat.toDigits 10 n, c.isDigit = true) ∧
      digitsVal (Nat.toDigits 10 n) 0 = n := by
  obtain ⟨pre, heq, hne, hdig, hval⟩ := toDigitsCore_spec n (n + 1) [] (by omega)
  have h : Nat.toDigits 10 n = pre := by
    rw [Nat.toDigits, heq, List.append_nil]
  rw [h]
  refine ⟨hne, hdig, ?_⟩
  simpa using hval 0

theorem toString_nat_data (n : Nat) : (toString n).data = Nat.toDigits 10 n := rfl

theorem parseDigitsAux_all_digits (l : List Char) (acc : Nat)
    (h : ∀ c ∈ l, c.isDigit = true) : parseDigitsAux l acc = digitsVal l acc := by
  induction l generalizing acc with
  | nil => rfl
  | cons c cs ih =>
    have hc : c.isDigit = true := h c (List.mem_cons_self c cs)
    simp only [parseDigitsAux, hc, if_true, digitsVal, List.foldl_cons]
    exact ih _ fun x hx => h x (List.mem_cons_of_mem c hx)

theorem jsParseInt_cons (c : Char) (cs : List Char) :
    jsParseInt ⟨c :: cs⟩ =
      if c.isDigit then some (parseDigitsAux (c :: cs) 0) else none := rfl

theorem jsParseInt_toString (n : Nat) : jsParseInt (toString n) = some n := by
  obtain ⟨hne, hdig, hval⟩ := toDigits_spec n
  have hd : (toString n).data = Nat.toDigits 10 n := toString_nat_data n
  cases hcs : Nat.toDigits 10 n with
  | nil => exact absurd hcs hne
  | cons c cs =>
    have hc : c.isDigit = true := hdig c (hcs ▸ List.mem_cons_self c cs)
    have hs : toString n = ⟨c :: cs⟩ := by rw [← hcs, ← hd]
    rw [hs, jsParseInt_cons, if_pos hc]
    refine congrArg some ?_
    rw [← hcs, parseDigitsAux_all_digits _ _ hdig]
    exact hval

theorem takeWhile_append_stop (p : Char → Bool) (l1 : List Char) (c : Char)
    (l2 : List Char) (h1 : ∀ x ∈ l1, p x = true) (h2 : p c = false) :
    (l1 ++ c :: l2).takeWhile p = l1 := by
  induction l1 with
  | nil => simp [List.takeWhile_cons, h2]
  | cons a l ih =>
    simp only [List.cons_append, List.takeWhile_cons,
      h1 a (List.mem_cons_self a l), if_true]
    rw [ih fun x hx => h1 x (List.mem_cons_of_mem a hx)]

theorem digit_ne_h {c : Char} (h : c.isDigit = true) :
    decide (c ≠ 'h') = true := by
  have hne : c ≠ 'h' := by
    intro he
    subst he
    exact absurd h (by decide)
  exact decide_eq_true hne

theorem splitAtH_duration (h m : Nat) :
    splitAtH (toString h ++ "h " ++ toString m ++ "m") = toString h := by
  obtain ⟨hne, hdig, _⟩ := toDigits_spec h
  have hdata : (toString h ++ "h " ++ toString m ++ "m").data =
      (toString h).data ++ 'h' :: (' ' :: ((toString m).data ++ ['m'])) := by
    simp [String.data_append]
  unfold splitAtH
  rw [hdata, takeWhile_append_stop _ _ _ _ ?hdigits (by decide)]
  case hdigits =>
    intro x hx
    rw [toString_nat_data] at hx
    exact digit_ne_h (hdig x hx)

theorem durationStr_ne_inProgress (h m : Nat) :
    toString h ++ "h " ++ toString m ++ "m" ≠ "In progress" := by
  intro he
  obtain ⟨hne, hdig, _⟩ := toDigits_spec h
  have hdata := congrArg String.data he
  have hL : (toString h ++ "h " ++ toString m ++ "m").data =
      (toString h).data ++ 'h' :: (' ' :: ((toString m).data ++ ['m'])) := by
    simp [String.data_append]
  rw [hL, toString_nat_data] at hdata
  cases hcs : Nat.toDigits 10 h with
  | nil => exact hne hcs
  | cons c cs =>
    rw [hcs] at hdata
    have hc : c.isDigit = true := hdig c (hcs ▸ List.mem_cons_self c cs)
    have hcI : c = 'I' := by
      have : ((c :: cs) ++ 'h' :: (' ' :: ((toString m).data ++ ['m']))).head? =
          ("In progress" : String).data.head? := by rw [hdata]
      simpa using this
    rw [hcI] at hc
    exact absurd hc (by decide)

theorem totalHoursStep_completed (t : Nat) (record : AttendanceReport)
    (hh mm : Nat) (hdur : record.duration = toString hh ++ "h " ++ toString mm ++ "m") :
    totalHoursStep (some t) record = some (t + hh) := by
  have h1 : jsParseInt (splitAtH record.duration) = some hh := by
    rw [hdur, splitAtH_duration hh mm, jsParseInt_toString hh]
  have h2 : record.duration ≠ "In progress" := by
    rw [hdur]
    exact durationStr_ne_inProgress hh mm
  simp [totalHoursStep, h1, h2]

theorem foldl_totalHoursStep (fmtTime : Nat → String) (fmtDate : String → String)
    (records : List AttendanceRecord) (t : Nat) :
    (generateReport fmtTime fmtDate records).foldl totalHoursStep (some t) =
      some (t + (records.map wholeHours).sum) := by
  induction records generalizing t with
  | nil => simp [generateReport]
  | cons r rs ih =>
    simp only [generateReport, List.map_cons, List.foldl_cons] at ih ⊢
    cases hco : r.check_out_time with
    | none =>
      have hstep : totalHoursStep (some t)
          { id := r.id, date := fmtDate r.date,
            checkInTime := fmtTime r.check_in_time,
            checkOutTime := Option.map fmtTime none,
            duration := reportDuration r.check_in_time none } = some t := by
        simp [totalHoursStep, reportDuration]
      rw [hstep, ih]
      have hw : wholeHours r = 0 := by simp only [wholeHours, hco]
      rw [List.sum_cons, hw, Nat.zero_add]
    | some co =>
      have hstep : totalHoursStep (some t)
          { id := r.id, date := fmtDate r.date,
            checkInTime := fmtTime r.check_in_time,
            checkOutTime := Option.map fmtTime (some co),
            duration := reportDuration r.check_in_time (some co) } =
          some (t + (co - r.check_in_time) / (1000 * 60 * 60)) := by
        exact totalHoursStep_completed t _ _
          ((co - r.check_in_time) / (1000 * 60) % 60) rfl
      rw [hstep, ih]
      have hw : wholeHours r = (co - r.check_in_time) / (1000 * 60 * 60) := by
        simp only [wholeHours, hco]
      rw [List.sum_cons, hw, Nat.add_assoc]

theorem totalHours_generateReport (fmtTime : Nat → String)
    (fmtDate : String → String) (records : List AttendanceRecord) :
    totalHours (generateReport fmtTime fmtDate records) =
      some ((records.map wholeHours).sum) := by
  rw [totalHours, foldl_totalHoursStep, Nat.zero_add]

/-- When an invocation runs to completion with no interleaving, the two
phases of `checkIn` compose back to the atomic `checkIn`. -/
theorem checkIn_eq_guard_commit (u : User) (s : AttendanceState) (now : Nat)
    (today rid : String) (hg : checkInGuard (some u) s = true) :
    checkIn (some u) s now today (.ok rid) =
      (checkInCommit u s now today rid, .checkedInOk now) := by
  simp only [checkInGuard, Option.isSome_some, Bool.true_and,
    Option.isNone_iff_eq_none] at hg
  simp [checkIn, checkInCommit, hg]

/-- A state whose today record is already checked out is a fixpoint of
`checkOut`, whatever the user, timestamp and persistence outcome. -/
theorem checkOut_fixpoint (user : Option User) (s : AttendanceState)
    (r : AttendanceRecord) (t : Nat) (hr : s.todayRecord = some r)
    (hc : r.check_out_time = some t) (now : Nat) (upd : Except String Unit) :
    (checkOut user s now upd).1 = s := by
  cases user with
  | none => rfl
  | some u => simp [checkOut, hr, hc]

/-- A state whose today record is already checked out is a fixpoint of any
sequence of `checkOut` invocations. -/
theorem checkOutSeq_fixpoint (user : Option User) (s : AttendanceState)
    (r : AttendanceRecord) (t : Nat) (hr : s.todayRecord = some r)
    (hc : r.check_out_time = some t)
    (calls : List (Nat × Except String Unit)) : checkOutSeq user s calls = s := by
  induction calls with
  | nil => rfl
  | cons c cs ih =>
    show List.foldl _ _ (c :: cs) = s
    rw [List.foldl_cons, checkOut_fixpoint user s r t hr hc c.1 c.2]
    exact ih

/-! ## The claims -/

/-- C1: whenever `todayRecord` is present (checked out or not) and a user
is present, `checkIn` is a no-op: the state (both `todayRecord` and
`recentRecords`) is returned unchanged — no record is created or
overwritten, so a second record for the same `(userId, date)` pair never
arises from `checkIn` — and the reported toast is "already checked in". -/
theorem checkIn_noop_when_already_checked_in (u : User) (s : AttendanceState)
    (now : Nat) (today : String) (ins : Except String String)
    (r : AttendanceRecord) (h : s.todayRecord = some r) :
    checkIn (some u) s now today ins = (s, .alreadyCheckedIn r.check_in_time) := by
  simp [checkIn, h]

/-- Witness for C1 at a concrete state. -/
theorem checkIn_noop_when_already_checked_in_witness :
    checkIn (some demoUser) ⟨some demoRecord, [demoRecord]⟩ 5000 "2024-01-01"
        (.ok "r9") =
      (⟨some demoRecord, [demoRecord]⟩, .alreadyCheckedIn 1000) :=
  checkIn_noop_when_already_checked_in demoUser ⟨some demoRecord, [demoRecord]⟩
    5000 "2024-01-01" (.ok "r9") demoRecord rfl

/-- C2: when the today record's `checkOutTime` is already set, `checkOut`
is a no-op reporting "already checked out"; and after a first successful
`checkOut` at time `now`, any further sequence of `checkOut` invocations
(any timestamps, any persistence outcomes, any user) leaves `todayRecord`
with `checkOutTime` equal to that first value `now`. -/
theorem checkOut_sets_time_at_most_once (u : User) (s : AttendanceState)
    (r : AttendanceRecord) (hr : s.todayRecord = some r) :
    (∀ now upd t, r.check_out_time = some t →
      checkOut (some u) s now upd = (s, .alreadyCheckedOut t)) ∧
    (∀ now, r.check_out_time = none →
      ∀ user2 calls,
        (checkOutSeq user2 ((checkOut (some u) s now (.ok ())).1) calls).todayRecord
          = some { r with check_out_time := some now }) := by
  constructor
  · intro now upd t ht
    simp [checkOut, hr, ht]
  · intro now hnone user2 calls
    have hstep : (checkOut (some u) s now (.ok ())).1 =
        { todayRecord := some { r with check_out_time := some now },
          recentRecords := s.recentRecords.map fun rec =>
            if rec.id = r.id then { r with check_out_time := some now } else rec } := by
      simp [checkOut, hr, hnone]
    rw [hstep, checkOutSeq_fixpoint user2 _ { r with check_out_time := some now }
      now rfl rfl calls]

/-- Witness for C2: check out once at time 2000, then try twice more. -/
theorem checkOut_sets_time_at_most_once_witness :
    checkOut (some demoUser)
        ⟨some { demoRecord with check_out_time := some 2000 }, []⟩ 9000 (.ok ()) =
      (⟨some { demoRecord with check_out_time := some 2000 }, []⟩,
        .alreadyCheckedOut 2000) ∧
    (checkOutSeq (some demoUser)
        ((checkOut (some demoUser) ⟨some demoRecord, [demoRecord]⟩ 2000 (.ok ())).1)
        [(3000, .ok ()), (4000, .error "boom")]).todayRecord =
      some { demoRecord with check_out_time := some 2000 } :=
  ⟨(checkOut_sets_time_at_most_once demoUser
      ⟨some { demoRecord with check_out_time := some 2000 }, []⟩
      { demoRecord with check_out_time := some 2000 } rfl).1 9000 (.ok ()) 2000 rfl,
   (checkOut_sets_time_at_most_once demoUser ⟨some demoRecord, [demoRecord]⟩
      demoRecord rfl).2 2000 rfl (some demoUser)
      [(3000, .ok ()), (4000, .error "boom")]⟩

/-- C5: a persistence error during `checkIn` (insert) or `checkOut`
(update) surfaces as the failure toast and returns the state exactly as it
was — no optimistic mutation of `todayRecord` or `recentRecords`. -/
theorem persistence_failure_leaves_state (u : User) (s : AttendanceState)
    (now : Nat) (today : String) (e : String) :
    (s.todayRecord = none →
      checkIn (some u) s now today (.error e) = (s, .checkInFailed)) ∧
    (∀ r, s.todayRecord = some r → r.check_out_time = none →
      checkOut (some u) s now (.error e) = (s, .checkOutFailed)) := by
  constructor
  · intro h
    simp [checkIn, h]
  · intro r hr hc
    simp [checkOut, hr, hc]

/-- Witness for C5 at concrete states. -/
theorem persistence_failure_leaves_state_witness :
    checkIn (some demoUser) emptyAttendanceState 5000 "2024-01-01" (.error "down")
        = (emptyAttendanceState, .checkInFailed) ∧
    checkOut (some demoUser) ⟨some demoRecord, [demoRecord]⟩ 9000 (.error "down")
        = (⟨some demoRecord, [demoRecord]⟩, .checkOutFailed) :=
  ⟨(persistence_failure_leaves_state demoUser emptyAttendanceState 5000
      "2024-01-01" "down").1 rfl,
   (persistence_failure_leaves_state demoUser ⟨some demoRecord, [demoRecord]⟩
      9000 "2024-01-01" "down").2 demoRecord rfl rfl⟩

/-- C6: the code does NOT serialize overlapping invocations.  `checkIn`
sets the busy flag but never reads it; its duplicate guard and its state
mutation are separated by the awaited insert.  In the schedule
guard A → guard B → commit A → commit B (legal on the JS event loop for a
double-click), the second guard still passes against the unmutated state,
and the final state holds two records for the same `(userId, date)` pair —
the claimed rejection/queueing does not happen. -/
theorem overlapping_checkIns_create_duplicate :
    checkInGuard (some demoUser) emptyAttendanceState = true ∧
    (racedState.recentRecords.countP fun rec =>
      rec.user_id == demoUser.id && rec.date == "2024-01-01") = 2 := by
  decide

/-- C7: when the current-user identity becomes absent, the user-change
effect resets the tracker's state to empty — `todayRecord` absent and
`recentRecords` empty — regardless of the previous state and of whatever
is in storage (no data is loaded: the result ignores `stored`). -/
theorem user_absent_resets_state (s : AttendanceState)
    (stored : Option (Except String (List AttendanceRecord))) (today : String) :
    attendanceUserEffect none s stored today =
      ({ todayRecord := none, recentRecords := [] }, false) := rfl

/-- C8: a malformed cached payload on load is discarded and non-fatal:
the attendance loader returns the state untouched (hence still empty, as
every load starts from the freshly reset empty state) and logs the error,
and the auth loader additionally removes the corrupt payload from storage
and leaves the user absent.  All loaders are total functions — the process
never terminates on corrupt input. -/
theorem malformed_cache_discarded (u : User) (e e2 today : String) :
    (∀ s, loadAttendanceRecords (some u) s (some (.error e)) today = (s, true)) ∧
    loadAttendanceRecords (some u) emptyAttendanceState (some (.error e)) today
      = (emptyAttendanceState, true) ∧
    authLoadStoredUser (some (.error e2)) = (none, true, true) :=
  ⟨fun _ => rfl, rfl, rfl⟩

/-- C3: the duration computation yields the sentinel "In progress" exactly
when the checkout is absent (in both the Dashboard and the Reports
variant); otherwise it renders whole hours plus remainder minutes by
truncating division of the elapsed milliseconds (hours = total minutes
divided by 60 truncated, minutes = total minutes mod 60), the two variants
agree, and a checkout exactly 2 h 15 min after check-in renders "2h 15m". -/
theorem duration_truncated_hours_minutes (ci d : Nat) :
    calculateDuration ci none = "In progress" ∧
    reportDuration ci none = "In progress" ∧
    calculateDuration ci (some (ci + d)) =
      toString (d / 60000 / 60) ++ "h " ++ toString (d / 60000 % 60) ++ "m" ∧
    reportDuration ci (some (ci + d)) = calculateDuration ci (some (ci + d)) ∧
    calculateDuration ci (some (ci + (2 * 60 + 15) * 60000)) = "2h 15m" := by
  have hsub : ci + d - ci = d := by omega
  have h1 : d / (1000 * 60 * 60) = d / 60000 / 60 := by
    rw [Nat.div_div_eq_div_mul]
  have h2 : d % (1000 * 60 * 60) / (1000 * 60) = d / 60000 % 60 := by
    have h := Nat.mod_mul_right_div_self d 60000 60
    norm_num at h
    norm_num
    exact h
  refine ⟨rfl, rfl, ?_, ?_, ?_⟩
  · simp only [calculateDuration]
    rw [hsub, h1, h2]
  · simp only [calculateDuration, reportDuration]
    rw [hsub, h2]
  · have hs : ci + (2 * 60 + 15) * 60000 - ci = (2 * 60 + 15) * 60000 := by omega
    simp only [calculateDuration]
    rw [hs]
    norm_num
    decide

/-- C4: the date-range fetch returns an empty result (without error) when
either endpoint or the user is absent; on success it returns exactly the
current user's records whose date key lies in `[from, to]` inclusive — a
permutation of the filtered table, characterised by membership — ordered
by date descending. -/
theorem fetchByDateRange_spec :
    (∀ u table toD net, fetchAttendanceByDateRange u table none toD net = []) ∧
    (∀ u table fromD net, fetchAttendanceByDateRange u table fromD none net = []) ∧
    (∀ table fromD toD net,
      fetchAttendanceByDateRange none table fromD toD net = []) ∧
    (∀ u table f t,
      (∀ r, r ∈ fetchAttendanceByDateRange (some u) table (some f) (some t) (.ok ()) ↔
          (r ∈ table ∧ r.user_id = u.id ∧ f ≤ r.date ∧ r.date ≤ t)) ∧
      List.Pairwise (fun a b => b.date ≤ a.date)
        (fetchAttendanceByDateRange (some u) table (some f) (some t) (.ok ())) ∧
      (fetchAttendanceByDateRange (some u) table (some f) (some t) (.ok ())).Perm
        (table.filter fun r =>
          decide (r.user_id = u.id ∧ f ≤ r.date ∧ r.date ≤ t))) := by
  refine ⟨?_, ?_, ?_, ?_⟩
  · intro u table toD net
    cases u with
    | none => rfl
    | some _ => cases toD <;> rfl
  · intro u table fromD net
    cases u with
    | none => rfl
    | some _ => cases fromD <;> rfl
  · intro table fromD toD net
    rfl
  · intro u table f t
    have hp : ∀ a : AttendanceRecord,
        (a.user_id == u.id && decide (f ≤ a.date) && decide (a.date ≤ t)) =
          decide (a.user_id = u.id ∧ f ≤ a.date ∧ a.date ≤ t) := by
      intro a
      rw [Bool.eq_iff_iff]
      simp [and_assoc]
    have htrans : ∀ a b c : AttendanceRecord,
        decide (b.date ≤ a.date) = true → decide (c.date ≤ b.date) = true →
          decide (c.date ≤ a.date) = true := by
      intro a b c h1 h2
      simp only [decide_eq_true_iff] at h1 h2 ⊢
      exact le_trans h2 h1
    have htotal : ∀ a b : AttendanceRecord,
        (decide (b.date ≤ a.date) || decide (a.date ≤ b.date)) = true := by
      intro a b
      simp only [Bool.or_eq_true, decide_eq_true_iff]
      exact le_total b.date a.date
    refine ⟨?_, ?_, ?_⟩
    · intro r
      simp [fetchAttendanceByDateRange, queryByUserAndDateRange,
        List.mem_filter, Bool.and_eq_true, decide_eq_true_iff, and_assoc]
    · show List.Pairwise _ (queryByUserAndDateRange table u.id f t)
      have hs := List.sorted_mergeSort htrans htotal
        (table.filter fun r =>
          r.user_id == u.id && decide (f ≤ r.date) && decide (r.date ≤ t))
      exact hs.imp fun h => of_decide_eq_true h
    · show (queryByUserAndDateRange table u.id f t).Perm _
      refine (List.mergeSort_perm _ _).trans ?_
      rw [List.filter_congr fun a _ => hp a]

/-- Witness for C4: a matching record is returned by a concrete query. -/
theorem fetchByDateRange_spec_witness :
    demoRecord ∈ fetchAttendanceByDateRange (some demoUser) [demoRecord]
      (some "2024-01-01") (some "2024-01-01") (.ok ()) :=
  ((fetchByDateRange_spec.2.2.2 demoUser [demoRecord] "2024-01-01"
      "2024-01-01").1 demoRecord).mpr
    ⟨List.mem_singleton_self demoRecord, rfl, le_refl _, le_refl _⟩

/-- C9: `downloadCSV` produces no file for an empty report (and, being a
total function, never throws); for a non-empty report the produced file is
named `attendance_report_<today>.csv`, its contents start with the exact
header line `Date,Check In Time,Check Out Time,Duration`, there is one row
per record, and a row with an absent checkout renders the literal
`Not checked out`. -/
theorem downloadCSV_spec :
    (∀ today, downloadCSV [] today = none) ∧
    (∀ rd today, rd ≠ [] →
      downloadCSV rd today =
        some ("attendance_report_" ++ today ++ ".csv",
          csvHeader ++ String.intercalate "\n" (rd.map csvRow)) ∧
      ∃ rest, csvHeader ++ String.intercalate "\n" (rd.map csvRow) =
        "Date,Check In Time,Check Out Time,Duration" ++ rest) ∧
    (∀ r : AttendanceReport, r.checkOutTime = none →
      csvRow r = r.date ++ "," ++ r.checkInTime ++ "," ++ "Not checked out" ++
        "," ++ r.duration) ∧
    (∀ rd : List AttendanceReport, (rd.map csvRow).length = rd.length) := by
  refine ⟨fun _ => rfl, ?_, ?_, fun rd => List.length_map rd csvRow⟩
  · intro rd today h
    constructor
    · cases rd with
      | nil => exact absurd rfl h
      | cons a l => rfl
    · refine ⟨"\n" ++ String.intercalate "\n" (rd.map csvRow), ?_⟩
      rw [show csvHeader = "Date,Check In Time,Check Out Time,Duration" ++ "\n"
        from rfl, String.append_assoc]
  · intro r h
    simp [csvRow, jsOrElse, h]

/-- Witness for C9 at a concrete one-row report. -/
theorem downloadCSV_spec_witness :
    downloadCSV [demoReport] "2024-06-01" =
      some ("attendance_report_" ++ "2024-06-01" ++ ".csv",
        csvHeader ++ String.intercalate "\n" ([demoReport].map csvRow)) ∧
    csvRow demoReport = "2024-01-01,09:00:00,Not checked out,In progress" := by
  constructor
  · exact (downloadCSV_spec.2.1 [demoReport] "2024-06-01"
      (List.cons_ne_nil demoReport [])).1
  · rw [downloadCSV_spec.2.2.1 demoReport rfl]
    rfl

/-- C10, counterexample to the claim as stated: the claim reads the
average as the truncated total divided by the number of rows and
"rounded to one decimal place" — i.e. `toFixed`-style rounding of the
exact quotient, `jsToFixed1 (3 / 20) = 0.2`.  The program instead rounds
the binary64 quotient: the double nearest `3 / 20` lies below `0.15`, so
at `totalHours = 3`, `totalDays = 20` the summary displays `0.1`, not the
claimed `0.2`. -/
theorem average_tie_rounds_by_double :
    averageHoursPerDay tieReport = 1 / 10 ∧
    jsToFixed1 ((((totalHours tieReport).getD 0 : Nat) : ℚ) /
      ((totalDays tieReport : Nat) : ℚ)) = 2 / 10 ∧
    (1 / 10 : ℚ) ≠ 2 / 10 := by
  have htH : totalHours tieReport = some 3 := by decide
  have htD : totalDays tieReport = 20 := by decide
  have hsig : jsDivSig 3 20 = (5404319552844595, -3) := by decide
  have hneg : ¬((3 : ℕ) = 0 ∨ (20 : ℕ) = 0) := by norm_num
  have hdd : jsDivDouble 3 20 = (5404319552844595 : ℚ) / 2 ^ 55 := by
    rw [jsDivDouble, if_neg hneg, hsig]
    norm_num
    rw [show Int.toNat 55 = 55 from rfl]
    norm_num
  have hfl : ⌊(5404319552844595 : ℚ) / 2 ^ 55 * 10 + 1 / 2⌋ = (1 : ℤ) := by
    rw [Int.floor_eq_iff]
    constructor <;> norm_num
  refine ⟨?_, ?_, by norm_num⟩
  · rw [averageHoursPerDay, htH, htD, if_pos (by norm_num)]
    show jsToFixed1 (jsDivDouble 3 20) = 1 / 10
    rw [hdd, jsToFixed1, hfl]
    norm_num
  · rw [htH, htD]
    show jsToFixed1 (((3 : ℕ) : ℚ) / ((20 : ℕ) : ℚ)) = 2 / 10
    have hfl2 : ⌊((3 : ℕ) : ℚ) / ((20 : ℕ) : ℚ) * 10 + 1 / 2⌋ = (2 : ℤ) := by
      rw [Int.floor_eq_iff]
      constructor <;> norm_num
    rw [jsToFixed1, hfl2]
    norm_num

/-- C10 (amended): on any generated report, the summary's total-hours
figure sums only the whole-hour component of each completed record's
duration (minutes discarded by the truncating division; records still in
progress contribute zero), and the average is that truncated total
divided by the number of rows as a binary64 division with the quotient's
double rounded to one decimal place by `toFixed` — so a decimal tie
rounds according to the double's binary value, as in
`average_tie_rounds_by_double`, rather than by exact half-up rounding —
and 0 when there are no rows. -/
theorem summary_truncated_total_and_average (fmtTime : Nat → String)
    (fmtDate : String → String) (records : List AttendanceRecord) :
    totalHours (generateReport fmtTime fmtDate records) =
      some ((records.map wholeHours).sum) ∧
    totalDays (generateReport fmtTime fmtDate records) = records.length ∧
    averageHoursPerDay (generateReport fmtTime fmtDate records) =
      (if records.length = 0 then 0
       else jsToFixed1 (jsDivDouble ((records.map wholeHours).sum)
         records.length)) := by
  have hdays : totalDays (generateReport fmtTime fmtDate records) = records.length := by
    simp [totalDays, generateReport]
  refine ⟨totalHours_generateReport fmtTime fmtDate records, hdays, ?_⟩
  rw [averageHoursPerDay, totalHours_generateReport, hdays, Option.getD_some]
  by_cases h : records.length = 0
  · rw [if_pos h, if_neg (by omega)]
  · rw [if_pos (Nat.pos_of_ne_zero h), if_neg h]

end Attend
